import Mathlib

/-!
# Verification of the hbp event-lifecycle pipeline

Shallow embedding of the event store and the database/orchestrator
functions of the `hbp` repository (`libhbp/func_database.py`,
`func_general.py`, `downloader.py`, `dbpopulator.py`, `skeeter.py`),
together with proofs about the lifecycle claims: insert-if-absent
uniqueness, flag monotonicity, flag-set error behaviour, the
publication reconciliation check, abort-on-submission-failure,
row deletion, and the positional-index flag readers.

The `SQLiteManager` class actually used by these modules (the one
providing `query_hbpdata`, `update_hbpdata_data` and the 8-column
`insert_hbpdata`) is not present in the repository snapshot; its row
schema and statement semantics are modelled from the spec (one table,
`play_id` primary key, three integer flag columns defaulting to 0,
per-statement SELECT/UPDATE/DELETE semantics with an affected-row
count).
-/

namespace Hbp

/-- A SQL value as it appears in a fetched row: text, integer or real.
Reals are modelled as rationals. -/
inductive Val where
  | s (v : String)
  | i (v : Int)
  | r (v : Rat)
deriving DecidableEq, Repr

/-- Modelled from the spec: one row of the `hbpdata` table, columns in
the schema order implied by `insert_row`'s argument comments and by the
positional flag map `{downloaded: 8, analyzed: 9, skeeted: 10}` in
`has_been_done`: play_id, game_pk, game_date, pitcher_id, batter_id,
end_speed, x_pos, z_pos, downloaded, analyzed, skeeted.  The three flag
columns are integers that default to 0 on insert. -/
structure Row where
  play_id : String
  game_pk : Int
  game_date : String
  pitcher_id : Int
  batter_id : Int
  end_speed : Rat
  x_pos : Rat
  z_pos : Rat
  downloaded : Int
  analyzed : Int
  skeeted : Int
deriving DecidableEq, Repr

/-- Positional access to a fetched row, as `select_data[0][i]` does in
Python: column positions 0..10 in schema order. -/
def Row.at (r : Row) : Nat → Option Val
  | 0 => some (.s r.play_id)
  | 1 => some (.i r.game_pk)
  | 2 => some (.s r.game_date)
  | 3 => some (.i r.pitcher_id)
  | 4 => some (.i r.batter_id)
  | 5 => some (.r r.end_speed)
  | 6 => some (.r r.x_pos)
  | 7 => some (.r r.z_pos)
  | 8 => some (.i r.downloaded)
  | 9 => some (.i r.analyzed)
  | 10 => some (.i r.skeeted)
  | _ => none

/-- Modelled from the spec: the durable store is the single `hbpdata`
table, a sequence of rows. -/
abbrev Db := List Row

/-- Modelled from the spec: `SELECT * FROM hbpdata WHERE play_id = ?`
returns the rows whose `play_id` equals the argument, in table order. -/
def query_play (db : Db) (pid : String) : List Row :=
  db.filter (fun r => r.play_id = pid)

/-- Number of rows currently stored for a given `play_id`. -/
def countRows (db : Db) (pid : String) : Nat :=
  (query_play db pid).length

/-- The distinct exception situations raised by the Python code
(`raise Exception(...)` with distinct messages, and the `TypeError`
from indexing a row with `None`). -/
inductive HbpError where
  | notFound (pid : String)
  | multiUpdate
  | multiDelete
  | typeError
  | videoMissing (gamePk pid : String)
  | postFailed (pid : String)
deriving DecidableEq, Repr

/-- The flag-position dictionary of `has_been_done`:
`{'downloaded': 8, 'analyzed': 9, 'skeeted': 10}`; `dict.get` yields
`None` for any other name. -/
def flagIndexMap : String → Option Nat
  | "downloaded" => some 8
  | "analyzed" => some 9
  | "skeeted" => some 10
  | _ => none

/-- The valid-flag list of `set_hbp_flag`. -/
def validFlags : List String := ["downloaded", "analyzed", "skeeted"]

/-- The statement `UPDATE hbpdata SET <flag> = 1` applied to one row: assigns the
literal 1 to the named flag column, other columns untouched. -/
def setFlagRow (flag : String) (r : Row) : Row :=
  if flag = "downloaded" then { r with downloaded := 1 }
  else if flag = "analyzed" then { r with analyzed := 1 }
  else if flag = "skeeted" then { r with skeeted := 1 }
  else r

/-- Modelled from the spec: `UPDATE hbpdata SET <flag> = 1 WHERE
play_id = ?` sets the flag on every matching row and reports the number
of affected rows. -/
def update_flag (db : Db) (flag : String) (pid : String) : Db × Nat :=
  (db.map (fun r => if r.play_id = pid then setFlagRow flag r else r),
   countRows db pid)

/-- Modelled from the spec: `DELETE FROM hbpdata WHERE play_id = ?`
removes every matching row and reports the number of affected rows. -/
def delete_play (db : Db) (pid : String) : Db × Nat :=
  (db.filter (fun r => ¬ r.play_id = pid), countRows db pid)

/-- The `game_deets` dictionary fields consumed by the insert path. -/
structure GameDeets where
  game_pk : Int
  date : String
deriving DecidableEq, Repr

/-- The HBP event dictionary fields consumed by the insert path. -/
structure HbpEvent where
  play_id : String
  pitcher_id : Int
  batter_id : Int
  end_speed : Rat
  plate_x : Rat
  plate_z : Rat
deriving DecidableEq, Repr

/-- Modelled from the spec: `insert_hbpdata` appends one row; the three
flag columns default to 0 (false). -/
def db_insert (db : Db) (r : Row) : Db := db ++ [r]

/-- Embedding of `func_database.has_been_done(play_id, flag)`: looks the flag name up
in the positional dictionary, selects the rows for `play_id`, and when
exactly one row matched compares `select_data[0][flag_index]` with 1.
An unrecognized flag name makes `flag_index` `None`, and indexing the
row with `None` raises a `TypeError` (the guard `if flag_status is not
None` tests the wrong variable and never blocks this). -/
def has_been_done (pid flag : String) (db : Db) : Except HbpError Bool :=
  match query_play db pid with
  | [r] =>
    match flagIndexMap flag with
    | none => .error .typeError
    | some i => .ok (decide (r.at i = some (.i 1)))
  | _ => .ok false

/-- Embedding of `func_database.has_been_downloaded`. -/
def has_been_downloaded (pid : String) (db : Db) : Except HbpError Bool :=
  has_been_done pid "downloaded" db

/-- Embedding of `func_database.has_been_analyzed`. -/
def has_been_analyzed (pid : String) (db : Db) : Except HbpError Bool :=
  has_been_done pid "analyzed" db

/-- Embedding of `func_database.has_been_skeeted`: reads column position 10. -/
def has_been_skeeted (pid : String) (db : Db) : Except HbpError Bool :=
  has_been_done pid "skeeted" db

/-- Embedding of `func_general.has_already_been_skeeted`: selects the rows for
`play_id` and, when exactly one row matched, compares
`select_data[0][9]` — column position 9 — with 1. -/
def has_already_been_skeeted (pid : String) (db : Db) : Bool :=
  match query_play db pid with
  | [r] => decide (r.at 9 = some (.i 1))
  | _ => false

/-- Embedding of `func_database.set_hbp_flag(play_id, flag)`: returns `False` at once
for a flag name outside the valid list; otherwise issues the UPDATE and
inspects the affected-row count: 0 raises "doesn't exist", 1 returns
`True`, more raises "More than one entry was updated".  The state
component carries the table as the statement left it. -/
def set_hbp_flag (pid flag : String) (db : Db) : Db × Except HbpError Bool :=
  if flag ∈ validFlags then
    let (db2, n) := update_flag db flag pid
    if n = 0 then (db2, .error (.notFound pid))
    else if n = 1 then (db2, .ok true)
    else (db2, .error .multiUpdate)
  else (db, .ok false)

/-- Embedding of `func_general.set_video_as_downloaded(play_id)`: issues
`UPDATE ... SET downloaded = 1` directly and applies the same
affected-count checks as `set_hbp_flag`. -/
def set_video_as_downloaded (pid : String) (db : Db) : Db × Except HbpError Bool :=
  let (db2, n) := update_flag db "downloaded" pid
  if n = 0 then (db2, .error (.notFound pid))
  else if n = 1 then (db2, .ok true)
  else (db2, .error .multiUpdate)

/-- The row written by `func_database.insert_row`: all eight data
columns from the game/event dictionaries, flags defaulting to 0. -/
def rowOfEvent (g : GameDeets) (e : HbpEvent) : Row :=
  { play_id := e.play_id, game_pk := g.game_pk, game_date := g.date,
    pitcher_id := e.pitcher_id, batter_id := e.batter_id,
    end_speed := e.end_speed, x_pos := e.plate_x, z_pos := e.plate_z,
    downloaded := 0, analyzed := 0, skeeted := 0 }

/-- Embedding of `func_database.insert_row(game, event)`: selects by
`event['play_id']`; inserts (and returns `True`) only when no row
matched, otherwise writes nothing and returns `False`. -/
def insert_row (g : GameDeets) (e : HbpEvent) (db : Db) : Db × Bool :=
  if query_play db e.play_id = [] then (db_insert db (rowOfEvent g e), true)
  else (db, false)

/-- The row written by `func_general.safe_dbinsert`, which passes no
date argument; the `game_date` column is modelled as defaulting to the
empty string.  Flags default to 0. -/
def rowOfEventNoDate (g : GameDeets) (e : HbpEvent) : Row :=
  { play_id := e.play_id, game_pk := g.game_pk, game_date := "",
    pitcher_id := e.pitcher_id, batter_id := e.batter_id,
    end_speed := e.end_speed, x_pos := e.plate_x, z_pos := e.plate_z,
    downloaded := 0, analyzed := 0, skeeted := 0 }

/-- Embedding of `func_general.safe_dbinsert(game, event)`: same insert-if-absent
shape as `insert_row` — select by `play_id`, insert only when no row
matched, return whether an insert happened. -/
def safe_dbinsert (g : GameDeets) (e : HbpEvent) (db : Db) : Db × Bool :=
  if query_play db e.play_id = [] then (db_insert db (rowOfEventNoDate g e), true)
  else (db, false)

/-- Embedding of `remove_row(play_id)` (identical logic in `func_database` and
`func_general`): issues the DELETE and checks the affected-row count:
0 or 1 returns `True`, more raises "More than one entry was deleted". -/
def remove_row (pid : String) (db : Db) : Db × Except HbpError Bool :=
  let (db2, n) := delete_play db pid
  if n = 0 ∨ n = 1 then (db2, .ok true)
  else (db2, .error .multiDelete)

/-- A filesystem work-queue artifact; per the spec every artifact
filename encodes the `(container_id, event_id)` pair (description text,
media file, or one of the analysis plots), plus a kind tag for the rest
of the name. -/
structure Artifact where
  gamePk : String
  pid : String
  kind : String
deriving DecidableEq, Repr

/-- Modelled from the spec: `func_skeet.cleanup_after_skeet` (module
missing from the snapshot) deletes every filesystem artifact belonging
to the event, i.e. every file whose name encodes this
`(container_id, event_id)` pair. -/
def cleanup_after_skeet (gamePk pid : String) (files : List Artifact) : List Artifact :=
  files.filter (fun a => ¬ (a.gamePk = gamePk ∧ a.pid = pid))

/-- The video-reconciliation block of `skeeter.main` (the four-way
`has_been_downloaded` × `os.path.exists` dispatch): flag false and file
absent proceeds with no video; flag false and file present repairs the
flag via `set_download_flag` and keeps the video; flag true and file
absent raises "Video ... is missing!"; flag true and file present
proceeds with the video.  The returned boolean says whether a video is
attached. -/
def reconcile_video (gamePk pid : String) (present : Bool) (db : Db) :
    Db × Except HbpError Bool :=
  match has_been_downloaded pid db with
  | .error e => (db, .error e)
  | .ok dl =>
    if ¬ dl ∧ ¬ present then (db, .ok false)
    else if ¬ dl ∧ present then
      match set_hbp_flag pid "downloaded" db with
      | (db2, .ok _) => (db2, .ok true)
      | (db2, .error e) => (db2, .error e)
    else if dl ∧ ¬ present then (db, .error (.videoMissing gamePk pid))
    else (db, .ok true)

/-- The per-artifact publication body of `skeeter.main` from the video
reconciliation onward: reconcile the media file, submit the post to the
posting collaborator (its outcome abstracted as `submitOk`; a failure
raises "Post of ... failed!"), and only on success and outside test
mode set the `skeeted` flag and delete the event's artifacts.  Returns
the store and work queue as the run leaves them, plus the outcome. -/
def skeet_body (gamePk pid : String) (present submitOk testMode : Bool)
    (db : Db) (files : List Artifact) :
    (Db × List Artifact) × Except HbpError Bool :=
  match reconcile_video gamePk pid present db with
  | (db1, .error e) => ((db1, files), .error e)
  | (db1, .ok _) =>
    if ¬ submitOk then ((db1, files), .error (.postFailed pid))
    else if testMode then ((db1, files), .ok true)
    else
      match set_hbp_flag pid "skeeted" db1 with
      | (db2, .error e) => ((db2, files), .error e)
      | (db2, .ok _) => ((db2, cleanup_after_skeet gamePk pid files), .ok true)

/-- The video block of `downloader.main` for one event: an empty (or
absent, modelled as empty) `play_id` is marked downloaded at once
without calling the media fetcher; otherwise, outside test/skip modes,
the fetcher runs (`fetchSucceeds` abstracts whether the fetched file
exists afterwards) and only a verified file sets the flag.  The last
component records whether the media-fetch collaborator was invoked. -/
def downloader_video_step (e : HbpEvent) (testMode skipVideoDl fetchSucceeds : Bool)
    (db : Db) : Db × Except HbpError Bool × Bool :=
  if e.play_id = "" then
    let (db2, res) := set_video_as_downloaded e.play_id db
    (db2, res, false)
  else if testMode then (db, .ok false, false)
  else if skipVideoDl then (db, .ok false, false)
  else
    if fetchSucceeds then
      let (db2, res) := set_video_as_downloaded e.play_id db
      (db2, res, true)
    else (db, .ok false, true)

/-- The ingest `try/except KeyboardInterrupt` of `dbpopulator.main` and
`downloader.main`: the interrupt lands between statements, so the
insert may or may not have completed (`insertCompleted`); the handler
compensates with `remove_row` on the event's id. -/
def ingest_interrupted (g : GameDeets) (e : HbpEvent) (insertCompleted : Bool)
    (db : Db) : Db × Except HbpError Bool :=
  let db1 := if insertCompleted then (insert_row g e db).1 else db
  remove_row e.play_id db1

/-- Runs a sequence of insert-if-absent calls through a given insert
function, collecting each call's boolean result in order. -/
def runInserts (f : GameDeets → HbpEvent → Db → Db × Bool)
    (calls : List (GameDeets × HbpEvent)) (db : Db) : Db × List Bool :=
  match calls with
  | [] => (db, [])
  | c :: rest =>
    let (db1, b) := f c.1 c.2 db
    let (db2, bs) := runInserts f rest db1
    (db2, b :: bs)

/-- A store-mutating operation other than explicit row deletion:
the two insert-if-absent functions and the two flag setters (the
`set_download_flag` / `set_analyzed_flag` / `set_skeeted_flag` wrappers
are `set_hbp_flag` instances). -/
inductive Op where
  | ins (g : GameDeets) (e : HbpEvent)
  | sins (g : GameDeets) (e : HbpEvent)
  | setFlag (pid flag : String)
  | setDl (pid : String)

/-- The store state an operation leaves behind (the statement's effect
is durable whether or not the call then raises). -/
def applyOp (op : Op) (db : Db) : Db :=
  match op with
  | .ins g e => (insert_row g e db).1
  | .sins g e => (safe_dbinsert g e db).1
  | .setFlag pid flag => (set_hbp_flag pid flag db).1
  | .setDl pid => (set_video_as_downloaded pid db).1

/-- The store after a sequence of non-deleting operations. -/
def runOps (ops : List Op) (db : Db) : Db :=
  ops.foldl (fun d op => applyOp op d) db

/-- The value of a named flag column of a row (0 for a name outside
the three flag columns). -/
def flagValRow (flag : String) (r : Row) : Int :=
  if flag = "downloaded" then r.downloaded
  else if flag = "analyzed" then r.analyzed
  else if flag = "skeeted" then r.skeeted
  else 0

/-- A row is related to its image under any number of flag-or-insert
steps: same identity, and each flag either untouched or assigned 1. -/
def rowMono (r r' : Row) : Prop :=
  r'.play_id = r.play_id ∧
  (r'.downloaded = r.downloaded ∨ r'.downloaded = 1) ∧
  (r'.analyzed = r.analyzed ∨ r'.analyzed = 1) ∧
  (r'.skeeted = r.skeeted ∨ r'.skeeted = 1)

/-- The common insert-if-absent contract obeyed by both `insert_row`
and `safe_dbinsert`: a fresh id appends one row carrying that id and
reports an insert; an existing id writes nothing and reports none. -/
def InsertIfAbsentSpec (f : GameDeets → HbpEvent → Db → Db × Bool) : Prop :=
  ∀ (g : GameDeets) (e : HbpEvent) (db : Db),
    (query_play db e.play_id = [] →
      ∃ r', f g e db = (db ++ [r'], true) ∧ r'.play_id = e.play_id) ∧
    (¬ query_play db e.play_id = [] → f g e db = (db, false))

/-- Sample game for concrete witnesses. -/
def gSample : GameDeets := { game_pk := 555555, date := "2024-05-01" }

/-- Sample event for concrete witnesses. -/
def eSample : HbpEvent :=
  { play_id := "abc", pitcher_id := 111, batter_id := 222,
    end_speed := 92, plate_x := 14, plate_z := 9 }

/-- Sample event with an empty `play_id` (no media obtainable). -/
def eSampleEmpty : HbpEvent :=
  { play_id := "", pitcher_id := 111, batter_id := 222,
    end_speed := 92, plate_x := 14, plate_z := 9 }

/-- Sample stored row for "abc": analyzed but neither downloaded nor
skeeted. -/
def rSample : Row :=
  { play_id := "abc", game_pk := 555555, game_date := "2024-05-01",
    pitcher_id := 111, batter_id := 222, end_speed := 92, x_pos := 14,
    z_pos := 9, downloaded := 0, analyzed := 1, skeeted := 0 }

/-- Sample stored row with `skeeted = 1`. -/
def rSampleSkeeted : Row := { rSample with skeeted := 1 }

/-- Sample stored row with an empty `play_id`. -/
def rSampleEmpty : Row := { rSample with play_id := "" }

/-- Sample queued description artifact for `(555555, abc)`. -/
def aSample : Artifact := { gamePk := "555555", pid := "abc", kind := "desc" }

/-! ## Basic lemmas about the store operations -/

theorem setFlagRow_play_id (flag : String) (r : Row) :
    (setFlagRow flag r).play_id = r.play_id := by
  unfold setFlagRow
  split_ifs <;> rfl

theorem rowMono_refl (r : Row) : rowMono r r :=
  ⟨rfl, .inl rfl, .inl rfl, .inl rfl⟩

theorem rowMono_trans {r1 r2 r3 : Row} (h1 : rowMono r1 r2) (h2 : rowMono r2 r3) :
    rowMono r1 r3 := by
  obtain ⟨hp1, hd1, ha1, hs1⟩ := h1
  obtain ⟨hp2, hd2, ha2, hs2⟩ := h2
  refine ⟨hp2.trans hp1, ?_, ?_, ?_⟩
  · rcases hd2 with h | h
    · rw [h]; exact hd1
    · exact .inr h
  · rcases ha2 with h | h
    · rw [h]; exact ha1
    · exact .inr h
  · rcases hs2 with h | h
    · rw [h]; exact hs1
    · exact .inr h

theorem setFlagRow_mono (flag : String) (r : Row) : rowMono r (setFlagRow flag r) := by
  unfold rowMono setFlagRow
  split_ifs <;> simp

theorem query_play_append (db1 db2 : Db) (pid : String) :
    query_play (db1 ++ db2) pid = query_play db1 pid ++ query_play db2 pid := by
  simp [query_play]

theorem play_id_of_query_single {db : Db} {pid : String} {r : Row}
    (h : query_play db pid = [r]) : r.play_id = pid := by
  have hm : r ∈ query_play db pid := by rw [h]; exact List.mem_singleton.mpr rfl
  have := List.mem_filter.mp hm
  simpa using this.2

theorem query_play_update (db : Db) (flag pid : String) :
    query_play (update_flag db flag pid).1 pid =
      (query_play db pid).map (setFlagRow flag) := by
  induction db with
  | nil => rfl
  | cons r tl ih =>
    by_cases h : r.play_id = pid
    · simp [query_play, update_flag, List.filter_cons, h, setFlagRow_play_id] at ih ⊢
      exact ih
    · simp [query_play, update_flag, List.filter_cons, h] at ih ⊢
      exact ih

theorem query_play_delete (db : Db) (pid : String) :
    query_play (delete_play db pid).1 pid = [] := by
  simp [query_play, delete_play, List.filter_filter]

theorem query_play_snoc_ne (db : Db) (pid : String) (r : Row)
    (h : ¬ r.play_id = pid) :
    query_play (db ++ [r]) pid = query_play db pid := by
  simp [query_play_append, query_play, List.filter_cons, h]

theorem query_play_snoc_eq (db : Db) (pid : String) (r : Row)
    (h : r.play_id = pid) :
    query_play (db ++ [r]) pid = query_play db pid ++ [r] := by
  simp [query_play_append, query_play, List.filter_cons, h]

theorem rowAt_downloaded (r : Row) : r.at 8 = some (.i r.downloaded) := rfl

theorem rowAt_analyzed (r : Row) : r.at 9 = some (.i r.analyzed) := rfl

theorem rowAt_skeeted (r : Row) : r.at 10 = some (.i r.skeeted) := rfl

theorem flagIndexMap_mem {flag : String} {i : Nat} (h : flagIndexMap flag = some i) :
    i = 8 ∨ i = 9 ∨ i = 10 := by
  unfold flagIndexMap at h
  split at h <;> simp_all

theorem rowMono_at_flag {r r' : Row} {i : Nat} (hm : rowMono r r')
    (hi : i = 8 ∨ i = 9 ∨ i = 10) (h1 : r.at i = some (.i 1)) :
    r'.at i = some (.i 1) := by
  obtain ⟨_, hd, ha, hs⟩ := hm
  rcases hi with rfl | rfl | rfl
  · rw [rowAt_downloaded] at h1 ⊢
    rcases hd with h | h <;> simp_all
  · rw [rowAt_analyzed] at h1 ⊢
    rcases ha with h | h <;> simp_all
  · rw [rowAt_skeeted] at h1 ⊢
    rcases hs with h | h <;> simp_all

theorem has_been_done_single {db : Db} {pid : String} {r : Row}
    (hq : query_play db pid = [r]) {flag : String} {i : Nat}
    (hi : flagIndexMap flag = some i) :
    has_been_done pid flag db = .ok (decide (r.at i = some (.i 1))) := by
  unfold has_been_done
  rw [hq, hi]

theorem has_been_done_ok_true {db : Db} {pid flag : String} {i : Nat}
    (hi : flagIndexMap flag = some i) :
    has_been_done pid flag db = .ok true ↔
      ∃ r, query_play db pid = [r] ∧ r.at i = some (.i 1) := by
  constructor
  · intro h
    unfold has_been_done at h
    rw [hi] at h
    revert h
    match hq : query_play db pid with
    | [] => intro h; cases h
    | [r] =>
      intro h
      refine ⟨r, rfl, ?_⟩
      have := Except.ok.inj h
      exact of_decide_eq_true this
    | a :: b :: t => intro h; cases h
  · rintro ⟨r, hq, h1⟩
    rw [has_been_done_single hq hi, h1]
    simp

theorem countRows_eq_zero_iff {db : Db} {pid : String} :
    countRows db pid = 0 ↔ query_play db pid = [] := by
  unfold countRows
  exact List.length_eq_zero

theorem countRows_single {db : Db} {pid : String} {r : Row}
    (hq : query_play db pid = [r]) : countRows db pid = 1 := by
  unfold countRows
  rw [hq]
  rfl

theorem set_hbp_flag_invalid {pid flag : String} (db : Db)
    (h : flag ∉ validFlags) : set_hbp_flag pid flag db = (db, .ok false) := by
  unfold set_hbp_flag
  simp [h]

theorem set_hbp_flag_single {db : Db} {pid : String} {r : Row}
    (hq : query_play db pid = [r]) {flag : String} (hf : flag ∈ validFlags) :
    set_hbp_flag pid flag db = ((update_flag db flag pid).1, .ok true) ∧
    query_play (set_hbp_flag pid flag db).1 pid = [setFlagRow flag r] := by
  have hc : countRows db pid = 1 := countRows_single hq
  have heq : set_hbp_flag pid flag db = ((update_flag db flag pid).1, .ok true) := by
    unfold set_hbp_flag update_flag
    simp [hf, hc, countRows_single hq]
  refine ⟨heq, ?_⟩
  rw [heq]
  have := query_play_update db flag pid
  rw [this, hq]
  rfl

theorem set_video_as_downloaded_single {db : Db} {pid : String} {r : Row}
    (hq : query_play db pid = [r]) :
    set_video_as_downloaded pid db = ((update_flag db "downloaded" pid).1, .ok true) ∧
    query_play (set_video_as_downloaded pid db).1 pid = [setFlagRow "downloaded" r] := by
  have hc : countRows db pid = 1 := countRows_single hq
  have heq : set_video_as_downloaded pid db =
      ((update_flag db "downloaded" pid).1, .ok true) := by
    unfold set_video_as_downloaded update_flag
    simp [hc, countRows_single hq]
  refine ⟨heq, ?_⟩
  rw [heq]
  have := query_play_update db "downloaded" pid
  rw [this, hq]
  rfl

theorem insert_row_absent {db : Db} (g : GameDeets) {e : HbpEvent}
    (h : query_play db e.play_id = []) :
    insert_row g e db = (db_insert db (rowOfEvent g e), true) := by
  unfold insert_row
  rw [if_pos h]

theorem insert_row_present {db : Db} (g : GameDeets) {e : HbpEvent}
    (h : ¬ query_play db e.play_id = []) :
    insert_row g e db = (db, false) := by
  unfold insert_row
  rw [if_neg h]

theorem safe_dbinsert_absent {db : Db} (g : GameDeets) {e : HbpEvent}
    (h : query_play db e.play_id = []) :
    safe_dbinsert g e db = (db_insert db (rowOfEventNoDate g e), true) := by
  unfold safe_dbinsert
  rw [if_pos h]

theorem safe_dbinsert_present {db : Db} (g : GameDeets) {e : HbpEvent}
    (h : ¬ query_play db e.play_id = []) :
    safe_dbinsert g e db = (db, false) := by
  unfold safe_dbinsert
  rw [if_neg h]

theorem filter_map_eq_filter {p : Row → Bool} {f : Row → Row}
    (hfix : ∀ a, p a = true → f a = a) (hpres : ∀ a, p (f a) = p a)
    (l : List Row) : (l.map f).filter p = l.filter p := by
  induction l with
  | nil => rfl
  | cons a tl ih =>
    rw [List.map_cons, List.filter_cons, List.filter_cons, hpres a]
    by_cases hpa : p a = true
    · rw [if_pos hpa, if_pos hpa, hfix a hpa, ih]
    · rw [if_neg hpa, if_neg hpa, ih]

theorem query_play_update_ne (db : Db) (flag pid' pid : String)
    (hp : ¬ pid' = pid) :
    query_play (update_flag db flag pid').1 pid = query_play db pid := by
  unfold query_play update_flag
  refine filter_map_eq_filter ?_ ?_ db
  · intro a ha
    have ha2 : a.play_id = pid := by simpa using ha
    have hne : ¬ a.play_id = pid' := by
      rw [ha2]
      exact fun h => hp h.symm
    rw [if_neg hne]
  · intro a
    split_ifs with h
    · simp [setFlagRow_play_id]
    · rfl

theorem set_hbp_flag_fst {flag : String} (pid' : String) (db : Db)
    (hf : flag ∈ validFlags) :
    (set_hbp_flag pid' flag db).1 = (update_flag db flag pid').1 := by
  unfold set_hbp_flag update_flag
  rw [if_pos hf]
  dsimp only
  split_ifs <;> rfl

theorem set_video_as_downloaded_fst (pid' : String) (db : Db) :
    (set_video_as_downloaded pid' db).1 = (update_flag db "downloaded" pid').1 := by
  unfold set_video_as_downloaded update_flag
  dsimp only
  split_ifs <;> rfl

/-- One non-deleting operation keeps a uniquely-matched row unique and
only improves it in the `rowMono` order. -/
theorem applyOp_query_single (op : Op) {db : Db} {pid : String} {r : Row}
    (hq : query_play db pid = [r]) :
    ∃ r', query_play (applyOp op db) pid = [r'] ∧ rowMono r r' := by
  cases op with
  | ins g e =>
    show ∃ r', query_play (insert_row g e db).1 pid = [r'] ∧ rowMono r r'
    by_cases he : query_play db e.play_id = []
    · have hne : ¬ (rowOfEvent g e).play_id = pid := by
        show ¬ e.play_id = pid
        intro h
        rw [h, hq] at he
        cases he
      rw [insert_row_absent g he]
      exact ⟨r, by rw [db_insert, query_play_snoc_ne db pid _ hne, hq], rowMono_refl r⟩
    · rw [insert_row_present g he]
      exact ⟨r, hq, rowMono_refl r⟩
  | sins g e =>
    show ∃ r', query_play (safe_dbinsert g e db).1 pid = [r'] ∧ rowMono r r'
    by_cases he : query_play db e.play_id = []
    · have hne : ¬ (rowOfEventNoDate g e).play_id = pid := by
        show ¬ e.play_id = pid
        intro h
        rw [h, hq] at he
        cases he
      rw [safe_dbinsert_absent g he]
      exact ⟨r, by rw [db_insert, query_play_snoc_ne db pid _ hne, hq], rowMono_refl r⟩
    · rw [safe_dbinsert_present g he]
      exact ⟨r, hq, rowMono_refl r⟩
  | setFlag pid' flag =>
    show ∃ r', query_play (set_hbp_flag pid' flag db).1 pid = [r'] ∧ rowMono r r'
    by_cases hf : flag ∈ validFlags
    · rw [set_hbp_flag_fst pid' db hf]
      by_cases hp : pid' = pid
      · subst hp
        rw [query_play_update db flag pid', hq]
        exact ⟨setFlagRow flag r, rfl, setFlagRow_mono flag r⟩
      · rw [query_play_update_ne db flag pid' pid hp, hq]
        exact ⟨r, rfl, rowMono_refl r⟩
    · rw [set_hbp_flag_invalid db hf]
      exact ⟨r, hq, rowMono_refl r⟩
  | setDl pid' =>
    show ∃ r', query_play (set_video_as_downloaded pid' db).1 pid = [r'] ∧ rowMono r r'
    rw [set_video_as_downloaded_fst pid' db]
    by_cases hp : pid' = pid
    · subst hp
      rw [query_play_update db "downloaded" pid', hq]
      exact ⟨setFlagRow "downloaded" r, rfl, setFlagRow_mono "downloaded" r⟩
    · rw [query_play_update_ne db "downloaded" pid' pid hp, hq]
      exact ⟨r, rfl, rowMono_refl r⟩

theorem runOps_query_single (ops : List Op) {db : Db} {pid : String} {r : Row}
    (hq : query_play db pid = [r]) :
    ∃ r', query_play (runOps ops db) pid = [r'] ∧ rowMono r r' := by
  induction ops generalizing db r with
  | nil => exact ⟨r, hq, rowMono_refl r⟩
  | cons op rest ih =>
    obtain ⟨r1, hq1, hm1⟩ := applyOp_query_single op hq
    obtain ⟨r2, hq2, hm2⟩ := ih hq1
    exact ⟨r2, hq2, rowMono_trans hm1 hm2⟩


theorem insert_row_ifAbsentSpec : InsertIfAbsentSpec insert_row := by
  intro g e db
  constructor
  · intro h
    exact ⟨rowOfEvent g e, insert_row_absent g h, rfl⟩
  · intro h
    exact insert_row_present g h

theorem safe_dbinsert_ifAbsentSpec : InsertIfAbsentSpec safe_dbinsert := by
  intro g e db
  constructor
  · intro h
    exact ⟨rowOfEventNoDate g e, safe_dbinsert_absent g h, rfl⟩
  · intro h
    exact safe_dbinsert_present g h

/-- Once a row for `pid` exists, every further insert-if-absent call
for `pid` is a no-op returning `false`. -/
theorem runInserts_present {f : GameDeets → HbpEvent → Db → Db × Bool}
    (hf : InsertIfAbsentSpec f) (calls : List (GameDeets × HbpEvent))
    (db : Db) (pid : String)
    (hpid : ∀ c ∈ calls, (c.2).play_id = pid)
    (h1 : ¬ query_play db pid = []) :
    runInserts f calls db = (db, List.replicate calls.length false) := by
  induction calls with
  | nil => rfl
  | cons c rest ih =>
    have hc : (c.2).play_id = pid := hpid c (List.mem_cons_self c rest)
    have hne : ¬ query_play db (c.2).play_id = [] := by rw [hc]; exact h1
    have hstep : f c.1 c.2 db = (db, false) := (hf c.1 c.2 db).2 hne
    have hrest : runInserts f rest db = (db, List.replicate rest.length false) :=
      ih (fun c' hc' => hpid c' (List.mem_cons_of_mem c hc'))
    unfold runInserts
    rw [hstep]
    dsimp only
    rw [hrest]
    rfl

/-- Starting from a store with no row for `pid`, the first call inserts
exactly one row and returns `true`, and all later calls return `false`
leaving exactly that one row and the store otherwise untouched. -/
theorem runInserts_fresh {f : GameDeets → HbpEvent → Db → Db × Bool}
    (hf : InsertIfAbsentSpec f) (c0 : GameDeets × HbpEvent)
    (calls : List (GameDeets × HbpEvent)) (db : Db) (pid : String)
    (h0 : (c0.2).play_id = pid)
    (hpid : ∀ c ∈ calls, (c.2).play_id = pid)
    (hempty : query_play db pid = []) :
    ∃ r', (runInserts f (c0 :: calls) db).1 = db ++ [r'] ∧ r'.play_id = pid ∧
      countRows (runInserts f (c0 :: calls) db).1 pid = 1 ∧
      (runInserts f (c0 :: calls) db).2 = true :: List.replicate calls.length false := by
  have he : query_play db (c0.2).play_id = [] := by rw [h0]; exact hempty
  obtain ⟨r', hstep, hrpid⟩ := (hf c0.1 c0.2 db).1 he
  have hq1 : query_play (db ++ [r']) pid = [r'] := by
    have : r'.play_id = pid := by rw [hrpid]; exact h0
    rw [query_play_snoc_eq db pid r' this, hempty]
    rfl
  have hne : ¬ query_play (db ++ [r']) pid = [] := by
    rw [hq1]
    exact List.cons_ne_nil r' []
  have hrest := runInserts_present hf calls (db ++ [r']) pid hpid hne
  unfold runInserts
  rw [hstep]
  dsimp only
  rw [hrest]
  refine ⟨r', rfl, ?_, ?_, rfl⟩
  · rw [hrpid, h0]
  · exact countRows_single hq1

theorem set_hbp_flag_snd {flag : String} (pid : String) (db : Db)
    (hf : flag ∈ validFlags) :
    (set_hbp_flag pid flag db).2 =
      if countRows db pid = 0 then .error (.notFound pid)
      else if countRows db pid = 1 then .ok true
      else .error .multiUpdate := by
  unfold set_hbp_flag update_flag
  rw [if_pos hf]
  dsimp only
  split_ifs <;> rfl

theorem set_video_as_downloaded_snd (pid : String) (db : Db) :
    (set_video_as_downloaded pid db).2 =
      if countRows db pid = 0 then .error (.notFound pid)
      else if countRows db pid = 1 then .ok true
      else .error .multiUpdate := by
  unfold set_video_as_downloaded update_flag
  dsimp only
  split_ifs <;> rfl

theorem mem_validFlags {flag : String} (hf : flag ∈ validFlags) :
    flag = "downloaded" ∨ flag = "analyzed" ∨ flag = "skeeted" := by
  simpa [validFlags] using hf

theorem flagValRow_setFlagRow {flag : String} (hf : flag ∈ validFlags) (r : Row) :
    flagValRow flag (setFlagRow flag r) = 1 := by
  rcases mem_validFlags hf with rfl | rfl | rfl <;> rfl

theorem has_been_downloaded_single {db : Db} {pid : String} {r : Row}
    (hq : query_play db pid = [r]) :
    has_been_downloaded pid db = .ok (decide (r.downloaded = 1)) := by
  unfold has_been_downloaded
  rw [has_been_done_single hq (show flagIndexMap "downloaded" = some 8 from rfl)]
  congr 1
  rw [rowAt_downloaded]
  exact decide_eq_decide.mpr (by simp)

theorem remove_row_fst (pid : String) (db : Db) :
    (remove_row pid db).1 = (delete_play db pid).1 := by
  unfold remove_row delete_play
  dsimp only
  split_ifs <;> rfl

theorem remove_row_le_one {pid : String} {db : Db} (h : countRows db pid ≤ 1) :
    remove_row pid db = ((delete_play db pid).1, .ok true) := by
  unfold remove_row delete_play
  dsimp only
  rw [if_pos (by omega)]

theorem remove_row_ge_two {pid : String} {db : Db} (h : 2 ≤ countRows db pid) :
    remove_row pid db = ((delete_play db pid).1, .error .multiDelete) := by
  unfold remove_row delete_play
  dsimp only
  rw [if_neg (by omega)]

/-- The four-way dispatch of the video-reconciliation block, stated for
a store holding exactly one row for the event. -/
theorem reconcile_video_spec (gamePk pid : String) (present : Bool)
    {db : Db} {r : Row} (hq : query_play db pid = [r]) :
    (r.downloaded = 1 → present = true →
      reconcile_video gamePk pid present db = (db, .ok true)) ∧
    (¬ r.downloaded = 1 → present = true →
      reconcile_video gamePk pid present db =
        ((update_flag db "downloaded" pid).1, .ok true) ∧
      query_play (update_flag db "downloaded" pid).1 pid =
        [setFlagRow "downloaded" r]) ∧
    (r.downloaded = 1 → present = false →
      reconcile_video gamePk pid present db =
        (db, .error (.videoMissing gamePk pid))) ∧
    (¬ r.downloaded = 1 → present = false →
      reconcile_video gamePk pid present db = (db, .ok false)) := by
  have hbd := has_been_downloaded_single hq
  refine ⟨?_, ?_, ?_, ?_⟩ <;> intro h1 h2 <;> subst h2
  · unfold reconcile_video
    rw [hbd]
    simp [h1]
  · obtain ⟨heq, hq2⟩ :=
      set_hbp_flag_single hq (show "downloaded" ∈ validFlags by decide)
    have hfst : (set_hbp_flag pid "downloaded" db).1 =
        (update_flag db "downloaded" pid).1 := by rw [heq]
    refine ⟨?_, by rw [hfst] at hq2; exact hq2⟩
    unfold reconcile_video
    rw [hbd]
    simp only [h1, decide_False]
    rw [heq]
    simp
  · unfold reconcile_video
    rw [hbd]
    simp [h1]
  · unfold reconcile_video
    rw [hbd]
    simp [h1]

/-- Whenever the fatal flag-true-file-missing combination is excluded,
reconciliation succeeds and leaves the event's unique row in place with
its `skeeted` flag untouched. -/
theorem reconcile_video_ok (gamePk pid : String) (present : Bool)
    {db : Db} {r : Row} (hq : query_play db pid = [r])
    (hcons : ¬ (r.downloaded = 1 ∧ present = false)) :
    ∃ db1 r1 b, reconcile_video gamePk pid present db = (db1, .ok b) ∧
      query_play db1 pid = [r1] ∧ r1.skeeted = r.skeeted := by
  by_cases hdl : r.downloaded = 1
  · cases hp : present with
    | true =>
      obtain ⟨hA, _, _, _⟩ := reconcile_video_spec gamePk pid true hq
      exact ⟨db, r, true, hA hdl rfl, hq, rfl⟩
    | false => exact absurd ⟨hdl, hp⟩ hcons
  · cases hp : present with
    | true =>
      obtain ⟨_, hB, _, _⟩ := reconcile_video_spec gamePk pid true hq
      obtain ⟨heq, hq2⟩ := hB hdl rfl
      exact ⟨(update_flag db "downloaded" pid).1, setFlagRow "downloaded" r,
        true, heq, hq2, rfl⟩
    | false =>
      obtain ⟨_, _, _, hD⟩ := reconcile_video_spec gamePk pid false hq
      exact ⟨db, r, false, hD hdl rfl, hq, rfl⟩

/-! ## Claim theorems -/

/-- C1: for any sequence of insert-if-absent calls (`insert_row` and
`safe_dbinsert`) on a store with no row for the shared `event_id`,
exactly one row with that id exists afterwards (the store is otherwise
untouched), only the first call writes and returns `true`, and every
later call writes nothing and returns `false`; neither function can
raise (their result type is a plain boolean). -/
theorem insert_if_absent_uniqueness
    (c0 : GameDeets × HbpEvent) (calls : List (GameDeets × HbpEvent))
    (db : Db) (pid : String)
    (h0 : (c0.2).play_id = pid)
    (hpid : ∀ c ∈ calls, (c.2).play_id = pid)
    (hfresh : countRows db pid = 0) :
    (∃ r', (runInserts insert_row (c0 :: calls) db).1 = db ++ [r'] ∧
      r'.play_id = pid ∧
      countRows (runInserts insert_row (c0 :: calls) db).1 pid = 1 ∧
      (runInserts insert_row (c0 :: calls) db).2 =
        true :: List.replicate calls.length false) ∧
    (∃ r', (runInserts safe_dbinsert (c0 :: calls) db).1 = db ++ [r'] ∧
      r'.play_id = pid ∧
      countRows (runInserts safe_dbinsert (c0 :: calls) db).1 pid = 1 ∧
      (runInserts safe_dbinsert (c0 :: calls) db).2 =
        true :: List.replicate calls.length false) := by
  have hempty : query_play db pid = [] := countRows_eq_zero_iff.mp hfresh
  exact ⟨runInserts_fresh insert_row_ifAbsentSpec c0 calls db pid h0 hpid hempty,
    runInserts_fresh safe_dbinsert_ifAbsentSpec c0 calls db pid h0 hpid hempty⟩

/-- C1 witness: three repeated inserts of the sample event into an
empty store, through both insert functions. -/
theorem insert_if_absent_uniqueness_witness :
    (∃ r', (runInserts insert_row
        [(gSample, eSample), (gSample, eSample), (gSample, eSample)] []).1 =
        [] ++ [r'] ∧ r'.play_id = "abc" ∧
      countRows (runInserts insert_row
        [(gSample, eSample), (gSample, eSample), (gSample, eSample)] []).1 "abc" = 1 ∧
      (runInserts insert_row
        [(gSample, eSample), (gSample, eSample), (gSample, eSample)] []).2 =
        true :: List.replicate 2 false) ∧
    (∃ r', (runInserts safe_dbinsert
        [(gSample, eSample), (gSample, eSample), (gSample, eSample)] []).1 =
        [] ++ [r'] ∧ r'.play_id = "abc" ∧
      countRows (runInserts safe_dbinsert
        [(gSample, eSample), (gSample, eSample), (gSample, eSample)] []).1 "abc" = 1 ∧
      (runInserts safe_dbinsert
        [(gSample, eSample), (gSample, eSample), (gSample, eSample)] []).2 =
        true :: List.replicate 2 false) :=
  insert_if_absent_uniqueness (gSample, eSample) [(gSample, eSample), (gSample, eSample)]
    [] "abc" rfl (by decide) rfl

/-- C6 counterexample: `remove_row` on a store with no matching row
deletes nothing yet still returns `True`, so "returns true iff exactly
one row was removed; never reports success when no row was removed" is
false on the code. -/
theorem remove_row_success_without_deletion :
    remove_row "abc" ([] : Db) = (([] : Db), .ok true) ∧
    countRows ([] : Db) "abc" = 0 :=
  ⟨rfl, rfl⟩

/-- C6 amended: `remove_row` returns `True` exactly when at most one
row matched (zero or one, removing all matching rows), and raises the
more-than-one assertion exactly when two or more rows matched; after
the call no row with the id remains. -/
theorem remove_row_cases (pid : String) (db : Db) :
    ((remove_row pid db).2 = .ok true ↔ countRows db pid ≤ 1) ∧
    ((remove_row pid db).2 = .error .multiDelete ↔ 2 ≤ countRows db pid) ∧
    countRows (remove_row pid db).1 pid = 0 := by
  refine ⟨⟨?_, ?_⟩, ⟨?_, ?_⟩, ?_⟩
  · intro h
    by_contra hc
    rw [remove_row_ge_two (by omega)] at h
    cases h
  · intro h
    rw [remove_row_le_one h]
  · intro h
    by_contra hc
    rw [remove_row_le_one (by omega)] at h
    cases h
  · intro h
    rw [remove_row_ge_two h]
  · rw [remove_row_fst]
    exact countRows_eq_zero_iff.mpr (query_play_delete db pid)

/-- C9 counterexample: on a store whose single "abc" row has
`analyzed = 1` and `skeeted = 0`, `func_database.has_been_skeeted`
(column 10) answers false while `func_general.has_already_been_skeeted`
(column 9) answers true, so the two readers are not equivalent. -/
theorem skeeted_readers_differ :
    has_been_skeeted "abc" [rSample] = .ok false ∧
    has_already_been_skeeted "abc" [rSample] = true :=
  ⟨rfl, rfl⟩

/-- C9 amended: `has_already_been_skeeted` reads column position 9,
which is the `analyzed` column, so on every store it coincides with the
analyzed reader `has_been_analyzed`, not with `has_been_skeeted`. -/
theorem has_already_been_skeeted_reads_analyzed (pid : String) (db : Db) :
    has_been_analyzed pid db = .ok (has_already_been_skeeted pid db) := by
  unfold has_been_analyzed has_been_done has_already_been_skeeted
  rcases hq : query_play db pid with _ | ⟨r, _ | ⟨b, t⟩⟩ <;> rfl

/-- C10 counterexample: with the unrecognized flag name "bogus" and a
store holding exactly one "abc" row, `has_been_done` raises (indexing
the row with `None`) instead of returning `False`. -/
theorem unknown_flag_raises :
    has_been_done "abc" "bogus" [rSample] = .error .typeError :=
  rfl

/-- C10 amended: for a flag name outside the positional dictionary,
`has_been_done` returns `False` only when the query does not yield
exactly one row, and raises a `TypeError` when exactly one row matches;
for a recognized flag name it returns `True` exactly when the query
yields exactly one row whose flag column equals 1, and never raises. -/
theorem has_been_done_cases (pid flag : String) (db : Db) :
    (flagIndexMap flag = none →
      ((∀ r : Row, ¬ query_play db pid = [r]) →
        has_been_done pid flag db = .ok false) ∧
      (∀ r : Row, query_play db pid = [r] →
        has_been_done pid flag db = .error .typeError)) ∧
    (∀ i : Nat, flagIndexMap flag = some i →
      ((has_been_done pid flag db = .ok true) ↔
        ∃ r, query_play db pid = [r] ∧ r.at i = some (.i 1)) ∧
      ∀ e : HbpError, ¬ has_been_done pid flag db = .error e) := by
  constructor
  · intro hnone
    constructor
    · intro hnot
      unfold has_been_done
      rcases hq : query_play db pid with _ | ⟨r, _ | ⟨b, t⟩⟩
      · rfl
      · exact absurd hq (hnot r)
      · rfl
    · intro r hq
      unfold has_been_done
      rw [hq, hnone]
  · intro i hi
    refine ⟨has_been_done_ok_true hi, ?_⟩
    intro e
    unfold has_been_done
    rcases hq : query_play db pid with _ | ⟨r, _ | ⟨b, t⟩⟩
    · intro h; cases h
    · rw [hi]; intro h; cases h
    · intro h; cases h

theorem countRows_insert_absent {db : Db} (g : GameDeets) {e : HbpEvent}
    (he : query_play db e.play_id = []) :
    countRows (insert_row g e db).1 e.play_id = 1 := by
  rw [insert_row_absent g he]
  show countRows (db_insert db (rowOfEvent g e)) e.play_id = 1
  unfold countRows db_insert
  rw [query_play_snoc_eq db e.play_id (rowOfEvent g e) rfl, he]
  rfl

/-- C2: for each of the three flags, no sequence of non-deleting store
operations (inserts and flag sets) can turn a read that observes the
flag as set into one that observes it clear, and the flag-setting row
update only ever assigns the literal 1 to a flag column. -/
theorem flag_monotonicity (ops : List Op) (db : Db) (pid flag : String)
    (i : Nat) (hi : flagIndexMap flag = some i)
    (htrue : has_been_done pid flag db = .ok true) :
    has_been_done pid flag (runOps ops db) = .ok true ∧
    ∀ (f : String) (r : Row),
      ((setFlagRow f r).downloaded = r.downloaded ∨ (setFlagRow f r).downloaded = 1) ∧
      ((setFlagRow f r).analyzed = r.analyzed ∨ (setFlagRow f r).analyzed = 1) ∧
      ((setFlagRow f r).skeeted = r.skeeted ∨ (setFlagRow f r).skeeted = 1) := by
  obtain ⟨r, hq, h1⟩ := (has_been_done_ok_true hi).mp htrue
  obtain ⟨r', hq', hm⟩ := runOps_query_single ops hq
  refine ⟨(has_been_done_ok_true hi).mpr
    ⟨r', hq', rowMono_at_flag hm (flagIndexMap_mem hi) h1⟩, ?_⟩
  intro f r0
  exact (setFlagRow_mono f r0).2

/-- C2 witness: a `skeeted = 1` row still reads as skeeted after a
further flag-set operation. -/
theorem flag_monotonicity_witness :
    has_been_done "abc" "skeeted"
      (runOps [Op.setFlag "abc" "analyzed"] [rSampleSkeeted]) = .ok true :=
  (flag_monotonicity [Op.setFlag "abc" "analyzed"] [rSampleSkeeted]
    "abc" "skeeted" 10 rfl rfl).1

/-- C3: `set_hbp_flag` with a valid flag name and
`set_video_as_downloaded` raise the not-found error exactly when zero
rows are affected, raise the more-than-one invariant assertion exactly
when two or more rows are affected, return `True` exactly when one row
is affected, and in that case leave the matched row's named flag at 1. -/
theorem set_flag_cases (pid flag : String) (db : Db) (hf : flag ∈ validFlags) :
    (countRows db pid = 0 →
      (set_hbp_flag pid flag db).2 = .error (.notFound pid) ∧
      (set_video_as_downloaded pid db).2 = .error (.notFound pid)) ∧
    (2 ≤ countRows db pid →
      (set_hbp_flag pid flag db).2 = .error .multiUpdate ∧
      (set_video_as_downloaded pid db).2 = .error .multiUpdate) ∧
    ((set_hbp_flag pid flag db).2 = .ok true ↔ countRows db pid = 1) ∧
    ((set_video_as_downloaded pid db).2 = .ok true ↔ countRows db pid = 1) ∧
    (∀ r, query_play db pid = [r] →
      query_play (set_hbp_flag pid flag db).1 pid = [setFlagRow flag r] ∧
      query_play (set_video_as_downloaded pid db).1 pid =
        [setFlagRow "downloaded" r] ∧
      flagValRow flag (setFlagRow flag r) = 1 ∧
      (setFlagRow "downloaded" r).downloaded = 1) := by
  have hs := set_hbp_flag_snd pid db hf
  have hv := set_video_as_downloaded_snd pid db
  refine ⟨?_, ?_, ?_, ?_, ?_⟩
  · intro h0
    rw [hs, hv, h0]
    simp
  · intro h2
    have h0 : ¬ countRows db pid = 0 := by omega
    have h1 : ¬ countRows db pid = 1 := by omega
    rw [hs, hv, if_neg h0, if_neg h1]
    exact ⟨rfl, rfl⟩
  · constructor
    · intro h
      by_cases h0 : countRows db pid = 0
      · rw [hs, if_pos h0] at h
        cases h
      · by_cases h1 : countRows db pid = 1
        · exact h1
        · rw [hs, if_neg h0, if_neg h1] at h
          cases h
    · intro h1
      rw [hs, h1]
      simp
  · constructor
    · intro h
      by_cases h0 : countRows db pid = 0
      · rw [hv, if_pos h0] at h
        cases h
      · by_cases h1 : countRows db pid = 1
        · exact h1
        · rw [hv, if_neg h0, if_neg h1] at h
          cases h
    · intro h1
      rw [hv, h1]
      simp
  · intro r hq
    obtain ⟨_, hq1⟩ := set_hbp_flag_single hq hf
    obtain ⟨_, hq2⟩ := set_video_as_downloaded_single hq
    exact ⟨hq1, hq2, flagValRow_setFlagRow hf r, rfl⟩

/-- C3 witness: setting `downloaded` on the single "abc" row succeeds. -/
theorem set_flag_cases_witness :
    (set_hbp_flag "abc" "downloaded" [rSample]).2 = .ok true :=
  ((set_flag_cases "abc" "downloaded" [rSample] (by decide)).2.2.1).mpr rfl

/-- C4: for a queued artifact whose event has exactly one stored row,
the Publication Orchestrator's reconciliation is the three-way check:
flag set and file present proceeds with the media; flag clear and file
present repairs the flag and proceeds with the media; flag set and file
missing is fatal; flag clear and file missing proceeds without media. -/
theorem publication_reconciles_media (gamePk pid : String) (present : Bool)
    (db : Db) (r : Row) (hq : query_play db pid = [r]) :
    (r.downloaded = 1 → present = true →
      reconcile_video gamePk pid present db = (db, .ok true)) ∧
    (¬ r.downloaded = 1 → present = true →
      ∃ db2, reconcile_video gamePk pid present db = (db2, .ok true) ∧
        query_play db2 pid = [{ r with downloaded := 1 }]) ∧
    (r.downloaded = 1 → present = false →
      reconcile_video gamePk pid present db =
        (db, .error (.videoMissing gamePk pid))) ∧
    (¬ r.downloaded = 1 → present = false →
      reconcile_video gamePk pid present db = (db, .ok false)) := by
  obtain ⟨hA, hB, hC, hD⟩ := reconcile_video_spec gamePk pid present hq
  refine ⟨hA, ?_, hC, hD⟩
  intro h1 h2
  obtain ⟨heq, hq2⟩ := hB h1 h2
  refine ⟨(update_flag db "downloaded" pid).1, heq, ?_⟩
  have hrow : setFlagRow "downloaded" r = { r with downloaded := 1 } := rfl
  rw [← hrow]
  exact hq2

/-- C4 witness: the repair branch on the sample store. -/
theorem publication_reconciles_media_witness :
    ∃ db2, reconcile_video "555555" "abc" true [rSample] = (db2, .ok true) ∧
      query_play db2 "abc" = [{ rSample with downloaded := 1 }] :=
  (publication_reconciles_media "555555" "abc" true [rSample] rSample rfl).2.1
    (by decide) rfl

/-- C5: when the submission step fails, the publication body aborts
with the post-failed error, deletes no artifact, and leaves the event's
`skeeted` flag exactly as it was; the flag is set and the artifacts are
deleted only on submission success (outside test mode). -/
theorem submission_failure_preserves_state (gamePk pid : String)
    (present submitOk testMode : Bool) (db : Db) (files : List Artifact)
    (r : Row) (hq : query_play db pid = [r])
    (hcons : ¬ (r.downloaded = 1 ∧ present = false)) :
    (submitOk = false →
      ∃ db1 r1, skeet_body gamePk pid present submitOk testMode db files =
          ((db1, files), .error (.postFailed pid)) ∧
        query_play db1 pid = [r1] ∧ r1.skeeted = r.skeeted) ∧
    (submitOk = true → testMode = false →
      ∃ db2, skeet_body gamePk pid present submitOk testMode db files =
          ((db2, cleanup_after_skeet gamePk pid files), .ok true) ∧
        (∃ r2, query_play db2 pid = [r2] ∧ r2.skeeted = 1) ∧
        ∀ a ∈ cleanup_after_skeet gamePk pid files,
          ¬ (a.gamePk = gamePk ∧ a.pid = pid)) := by
  obtain ⟨db1, r1, b, hrec, hq1, hsk⟩ :=
    reconcile_video_ok gamePk pid present hq hcons
  constructor
  · intro hsub
    subst hsub
    refine ⟨db1, r1, ?_, hq1, hsk⟩
    unfold skeet_body
    rw [hrec]
    simp
  · intro hsub ht
    subst hsub
    subst ht
    obtain ⟨heq, hq2⟩ :=
      set_hbp_flag_single hq1 (show "skeeted" ∈ validFlags by decide)
    have hfst : (set_hbp_flag pid "skeeted" db1).1 =
        (update_flag db1 "skeeted" pid).1 := by rw [heq]
    refine ⟨(update_flag db1 "skeeted" pid).1, ?_,
      ⟨setFlagRow "skeeted" r1, by rw [hfst] at hq2; exact hq2, rfl⟩, ?_⟩
    · unfold skeet_body
      rw [hrec]
      simp [heq]
    · intro a ha
      exact of_decide_eq_true (List.mem_filter.mp ha).2

/-- C5 witness: the success branch on the sample store and queue. -/
theorem submission_failure_preserves_state_witness :
    ∃ db2, skeet_body "555555" "abc" true true false [rSample] [aSample] =
        ((db2, cleanup_after_skeet "555555" "abc" [aSample]), .ok true) ∧
      (∃ r2, query_play db2 "abc" = [r2] ∧ r2.skeeted = 1) ∧
      ∀ a ∈ cleanup_after_skeet "555555" "abc" [aSample],
        ¬ (a.gamePk = "555555" ∧ a.pid = "abc") :=
  (submission_failure_preserves_state "555555" "abc" true true false
    [rSample] [aSample] rSample rfl (by decide)).2 rfl rfl

/-- C7: a persisted event whose `play_id` is empty is marked downloaded
at once — the media-fetch collaborator is not invoked — and the
downloader moves on without error. -/
theorem empty_play_id_marks_downloaded (e : HbpEvent)
    (testMode skipVideoDl fetchSucceeds : Bool) (db : Db) (r : Row)
    (he : e.play_id = "") (hq : query_play db "" = [r]) :
    ∃ db2, downloader_video_step e testMode skipVideoDl fetchSucceeds db =
        (db2, .ok true, false) ∧
      query_play db2 "" = [{ r with downloaded := 1 }] := by
  obtain ⟨heq, hq2⟩ := set_video_as_downloaded_single hq
  unfold downloader_video_step
  rw [he, if_pos rfl, heq]
  refine ⟨(update_flag db "downloaded" "").1, rfl, ?_⟩
  rw [heq] at hq2
  have hrow : setFlagRow "downloaded" r = { r with downloaded := 1 } := rfl
  rw [← hrow]
  exact hq2

/-- C7 witness: the empty-id sample event against a store holding its
row. -/
theorem empty_play_id_marks_downloaded_witness :
    ∃ db2, downloader_video_step eSampleEmpty false false false [rSampleEmpty] =
        (db2, .ok true, false) ∧
      query_play db2 "" = [{ rSampleEmpty with downloaded := 1 }] :=
  empty_play_id_marks_downloaded eSampleEmpty false false false
    [rSampleEmpty] rSampleEmpty rfl rfl

/-- C8: a keyboard interrupt during ingest of one candidate event runs
the compensating `remove_row`, after which no row for that `event_id`
remains, whether or not the insert had completed; the compensation
itself reports success. -/
theorem interrupted_ingest_compensates (g : GameDeets) (e : HbpEvent)
    (insertCompleted : Bool) (db : Db) (h : countRows db e.play_id ≤ 1) :
    countRows (ingest_interrupted g e insertCompleted db).1 e.play_id = 0 ∧
    (ingest_interrupted g e insertCompleted db).2 = .ok true := by
  have hle : countRows
      (if insertCompleted then (insert_row g e db).1 else db) e.play_id ≤ 1 := by
    cases insertCompleted with
    | false => simpa using h
    | true =>
      rw [if_pos rfl]
      by_cases he : query_play db e.play_id = []
      · rw [countRows_insert_absent g he]
      · rw [insert_row_present g he]
        exact h
  unfold ingest_interrupted
  show countRows (remove_row e.play_id
      (if insertCompleted then (insert_row g e db).1 else db)).1 e.play_id = 0 ∧
    (remove_row e.play_id
      (if insertCompleted then (insert_row g e db).1 else db)).2 = .ok true
  rw [remove_row_le_one hle]
  refine ⟨?_, rfl⟩
  exact countRows_eq_zero_iff.mpr (query_play_delete _ e.play_id)

/-- C8 witness: interrupt right after inserting the sample event into
an empty store. -/
theorem interrupted_ingest_compensates_witness :
    countRows (ingest_interrupted gSample eSample true []).1 eSample.play_id = 0 ∧
    (ingest_interrupted gSample eSample true []).2 = .ok true :=
  interrupted_ingest_compensates gSample eSample true [] (by decide)

end Hbp
